import Mathlib

/-!
Shallow embedding of the Task/Project store of `src/mcp-task-server-v2.js`
(the v2 server; every handler below is translated from the correspondingly
named `handleXxx` function of that file).

Modelling conventions:
* The two global arrays `projects` and `tasks` form a `Store`; each handler
  takes the store and returns its response together with the store after the
  call (`HandlerOut`).  Error paths of the source `return` before any
  mutation, so they yield the store unchanged.
* JavaScript argument bags are structures of `Option` fields: `none` models
  an absent (`undefined`) field.  For `update_*` arguments whose value can
  itself be `null`, the field is a double `Option` (`some none` models an
  explicit `null`, which passes the source's `!== undefined` test).
* Timestamps (`new Date().toISOString()`) are modelled as a `now : Nat`
  parameter; `uuidv4()` as a `newId : String` parameter.  Date strings
  (`due_date`, and the values compared through `new Date(...)`) are
  modelled by their numeric time value (`Nat`).
* `a || b` on strings is `jsOr` / `jsOrNull` below (in JavaScript the empty
  string is falsy); `x !== undefined` on an optional field is a `match` on
  the outer `Option`.
* `Array.prototype.sort` is stable; it is modelled by the stable insertion
  sort `sortByCmp` with the source's comparator, where a comparator value
  that would be `NaN` in JavaScript is collapsed to `0` (the ECMAScript
  sort treats a `NaN` comparator result as a tie).
* The persistence hook calls (`if (saveProjects) saveProjects()` etc.) do
  not modify the in-memory collections and are modelled as no-ops; they are
  the interface to the external Persister collaborator.
-/

namespace TaskManager

/-- JavaScript `a || d` for a possibly absent string (`""` is falsy). -/
def jsOr (o : Option String) (d : String) : String :=
  match o with
  | none => d
  | some s => if s = "" then d else s

/-- JavaScript `a || null` for a possibly absent string (`""` is falsy). -/
def jsOrNull (o : Option String) : Option String :=
  match o with
  | none => none
  | some s => if s = "" then none else some s

/-- A project record, as built by `handleCreateProject`.  `name` is stored
verbatim from the request (the source performs no validation), so a record
created without a `name` holds `undefined`, modelled as `none`. -/
structure Project where
  id : String
  name : Option String
  description : String
  status : String
  priority : String
  due_date : Option Nat
  tags : List String
  created_at : Nat
  updated_at : Nat
deriving Repr, DecidableEq

/-- A task record, as built by `handleCreateTask`.  `title` is stored
verbatim (no validation); `project_name` is a denormalized copy of the
owning project's `name` taken at create/move time. -/
structure Task where
  id : String
  title : Option String
  description : String
  project_id : String
  project_name : Option String
  status : String
  priority : String
  due_date : Option Nat
  assignee : Option String
  tags : List String
  parent_task_id : Option String
  created_at : Nat
  updated_at : Nat
  subtasks : List String
deriving Repr, DecidableEq

/-- The two in-memory collections (`let projects = []; let tasks = []`). -/
structure Store where
  projects : List Project
  tasks : List Task
deriving Repr, DecidableEq

def emptyStore : Store := { projects := [], tasks := [] }

/-- The two error classes of the core (section 7 of the specification).
The v2 source only ever produces the 404 `NotFoundError` responses;
`ValidationError` is listed by the specification for missing required
fields. -/
inductive StoreError where
  | NotFoundError : String → StoreError
  | ValidationError : String → StoreError
deriving Repr, DecidableEq

/-- Result of a mutating handler: the response (payload or error) together
with the store after the call. -/
structure HandlerOut (ρ : Type) where
  resp : Except StoreError ρ
  store : Store
deriving Repr

/-- Replace the first element satisfying `p` (the source mutates the record
found by `find` / `findIndex` in place). -/
def updateFirst (p : α → Bool) (f : α → α) : List α → List α
  | [] => []
  | x :: xs => if p x then f x :: xs else x :: updateFirst p f xs

/-- Remove the first element satisfying `p` (`splice(index, 1)`). -/
def removeFirst (p : α → Bool) : List α → List α
  | [] => []
  | x :: xs => if p x then xs else x :: removeFirst p xs

/-- `priorityOrder = { urgent: 0, high: 1, medium: 2, low: 3 }`; indexing a
missing key gives `undefined`, modelled as `none`. -/
def priorityRank (p : String) : Option Nat :=
  if p = "urgent" then some 0
  else if p = "high" then some 1
  else if p = "medium" then some 2
  else if p = "low" then some 3
  else none

/-- The comparator shared by `handleListProjects` and `handleListTasks`:
priority rank first, then ascending due date when both sides have one,
otherwise a tie.  A `NaN` comparator value (an unknown priority) is
collapsed to `0`, as the ECMAScript sort does. -/
def prioDueCmp (pa pb : String) (da db : Option Nat) : Int :=
  if pa ≠ pb then
    match priorityRank pa, priorityRank pb with
    | some ra, some rb => (ra : Int) - (rb : Int)
    | _, _ => 0
  else
    match da, db with
    | some x, some y => (x : Int) - (y : Int)
    | _, _ => 0

/-- Stable insertion of `x` into `l` for comparator `c`: `x` goes before
the first element it does not compare strictly greater than. -/
def orderedInsertCmp (c : α → α → Int) (x : α) : List α → List α
  | [] => [x]
  | y :: ys => if c x y ≤ 0 then x :: y :: ys else y :: orderedInsertCmp c x ys

/-- Stable sort by a JavaScript-style comparator, modelling the stable
`Array.prototype.sort`. -/
def sortByCmp (c : α → α → Int) : List α → List α
  | [] => []
  | x :: xs => orderedInsertCmp c x (sortByCmp c xs)

/-- The derived per-project task-count view added by `handleListProjects`. -/
structure TaskCounts where
  total : Nat
  todo : Nat
  in_progress : Nat
  done : Nat
deriving Repr, DecidableEq

/-- A project as returned by `handleListProjects` (`{ ...project,
task_counts: {...} }`). -/
structure ProjectWithCounts extends Project where
  task_counts : TaskCounts
deriving Repr, DecidableEq

def taskCountsFor (ts : List Task) (pid : String) : TaskCounts :=
  let pt := ts.filter (fun t => t.project_id == pid)
  { total := pt.length
    todo := (pt.filter (fun t => t.status == "todo")).length
    in_progress := (pt.filter (fun t => t.status == "in_progress")).length
    done := (pt.filter (fun t => t.status == "done")).length }

/-- The status filter `if (args.status && args.status !== 'all')`, shared
shape of the status and priority filters of both list handlers. -/
def enumFilter (v : Option String) (get : α → String) (l : List α) : List α :=
  match v with
  | some s => if s ≠ "" ∧ s ≠ "all" then l.filter (fun x => get x == s) else l
  | none => l

structure ListProjectsArgs where
  status : Option String
deriving Repr, DecidableEq

/-- The comparator of `projectsWithCounts.sort((a, b) => ...)`. -/
def projectCmp (a b : ProjectWithCounts) : Int :=
  prioDueCmp a.priority b.priority a.due_date b.due_date

/-- The filtered and task-count-annotated collection built by
`handleListProjects` before sorting. -/
def listProjectsBase (args : ListProjectsArgs) (s : Store) :
    List ProjectWithCounts :=
  (enumFilter args.status Project.status s.projects).map
    (fun p => { toProject := p, task_counts := taskCountsFor s.tasks p.id })

/-- `handleListProjects` (read-only): filter, annotate with task counts,
sort. -/
def handleListProjects (args : ListProjectsArgs) (s : Store) :
    List ProjectWithCounts :=
  sortByCmp projectCmp (listProjectsBase args s)

structure ListTasksArgs where
  project_id : Option String
  status : Option String
  priority : Option String
deriving Repr, DecidableEq

/-- `project ? project.name : 'Unknown Project'` over the live project
collection. -/
def projectNameFor (ps : List Project) (pid : String) : Option String :=
  match ps.find? (fun p => p.id == pid) with
  | some p => p.name
  | none => some "Unknown Project"

/-- The comparator of `tasksWithProjects.sort((a, b) => ...)` (textually
identical to the projects one in the source). -/
def taskCmp (a b : Task) : Int :=
  prioDueCmp a.priority b.priority a.due_date b.due_date

/-- The project filter `if (args.project_id) { ... }` of
`handleListTasks` (a truthy, i.e. present and non-empty, id filters). -/
def projectIdFilter (v : Option String) (l : List Task) : List Task :=
  match v with
  | some pid => if pid ≠ "" then l.filter (fun t => t.project_id == pid) else l
  | none => l

/-- The filtered and project-name-annotated collection built by
`handleListTasks` before sorting. -/
def listTasksBase (args : ListTasksArgs) (s : Store) : List Task :=
  let f1 := projectIdFilter args.project_id s.tasks
  let f2 := enumFilter args.status Task.status f1
  let f3 := enumFilter args.priority Task.priority f2
  f3.map
    (fun t => { t with project_name := projectNameFor s.projects t.project_id })

/-- `handleListTasks` (read-only): filter on the three axes, annotate each
task with its owning project's current name, sort. -/
def handleListTasks (args : ListTasksArgs) (s : Store) : List Task :=
  sortByCmp taskCmp (listTasksBase args s)

structure CreateProjectArgs where
  name : Option String
  description : Option String
  status : Option String
  priority : Option String
  due_date : Option Nat
  tags : Option (List String)
deriving Repr, DecidableEq

/-- `handleCreateProject`: unconditionally builds and appends the new
project (the source performs no validation of `name`). -/
def handleCreateProject (args : CreateProjectArgs) (newId : String)
    (now : Nat) (s : Store) : HandlerOut Project :=
  let newProject : Project :=
    { id := newId
      name := args.name
      description := jsOr args.description ""
      status := jsOr args.status "todo"
      priority := jsOr args.priority "medium"
      due_date := args.due_date
      tags := args.tags.getD []
      created_at := now
      updated_at := now }
  { resp := .ok newProject
    store := { s with projects := s.projects ++ [newProject] } }

structure UpdateProjectArgs where
  id : String
  name : Option String
  description : Option String
  status : Option String
  priority : Option String
  due_date : Option (Option Nat)
  tags : Option (List String)
deriving Repr, DecidableEq

/-- The `if (args.x !== undefined) project.x = args.x` block of
`handleUpdateProject`, plus the unconditional `updated_at` refresh. -/
def applyProjectUpdate (args : UpdateProjectArgs) (now : Nat) (p : Project) :
    Project :=
  { p with
    name := match args.name with | some v => some v | none => p.name
    description := args.description.getD p.description
    status := args.status.getD p.status
    priority := args.priority.getD p.priority
    due_date := match args.due_date with | some v => v | none => p.due_date
    tags := args.tags.getD p.tags
    updated_at := now }

def handleUpdateProject (args : UpdateProjectArgs) (now : Nat) (s : Store) :
    HandlerOut Project :=
  match s.projects.find? (fun p => p.id == args.id) with
  | none => { resp := .error (.NotFoundError "Project not found"), store := s }
  | some p =>
    { resp := .ok (applyProjectUpdate args now p)
      store := { s with
        projects := updateFirst (fun q => q.id == args.id)
          (applyProjectUpdate args now) s.projects } }

structure DeleteProjectArgs where
  id : String
  delete_tasks : Bool
deriving Repr, DecidableEq

/-- Payload of `handleDeleteProject`: the deleted project, and (when the
cascade flag was set) the list of deleted tasks, whose length is the
reported count. -/
structure DeleteProjectResp where
  project : Project
  deleted_tasks : Option (List Task)
deriving Repr, DecidableEq

def handleDeleteProject (args : DeleteProjectArgs) (s : Store) :
    HandlerOut DeleteProjectResp :=
  match s.projects.find? (fun p => p.id == args.id) with
  | none => { resp := .error (.NotFoundError "Project not found"), store := s }
  | some p =>
    let projects' := removeFirst (fun q => q.id == args.id) s.projects
    if args.delete_tasks then
      { resp := .ok
          { project := p
            deleted_tasks := some (s.tasks.filter (fun t => t.project_id == args.id)) }
        store :=
          { projects := projects'
            tasks := s.tasks.filter (fun t => !(t.project_id == args.id)) } }
    else
      { resp := .ok { project := p, deleted_tasks := none }
        store := { s with projects := projects' } }

structure CreateTaskArgs where
  title : Option String
  description : Option String
  project_id : String
  status : Option String
  priority : Option String
  due_date : Option Nat
  assignee : Option String
  tags : Option (List String)
  parent_task_id : Option String
deriving Repr, DecidableEq

/-- The `newTask` object literal of `handleCreateTask`. -/
def newTaskRecord (args : CreateTaskArgs) (newId : String) (now : Nat)
    (proj : Project) : Task :=
  { id := newId
    title := args.title
    description := jsOr args.description ""
    project_id := args.project_id
    project_name := proj.name
    status := jsOr args.status "todo"
    priority := jsOr args.priority "medium"
    due_date := args.due_date
    assignee := jsOrNull args.assignee
    tags := args.tags.getD []
    parent_task_id := jsOrNull args.parent_task_id
    created_at := now
    updated_at := now
    subtasks := [] }

/-- The `if (args.parent_task_id) { ... parent.subtasks.push(newTask.id) }`
block of `handleCreateTask`: when a truthy parent id resolves in the task
collection (the new task included), push the new id onto the first
matching task's `subtasks`. -/
def linkParent (pid0 : Option String) (newId : String) (l : List Task) :
    List Task :=
  match pid0 with
  | some pid =>
    match l.find? (fun t => t.id == pid) with
    | some _ => updateFirst (fun t => t.id == pid)
        (fun t => { t with subtasks := t.subtasks ++ [newId] }) l
    | none => l
  | none => l

/-- `handleCreateTask`: requires the project to exist, appends the new
task, then links the parent.  The response payload is the new task as
first built; the self-parent aliasing of the source's response object is
not modelled (the store is modelled exactly). -/
def handleCreateTask (args : CreateTaskArgs) (newId : String) (now : Nat)
    (s : Store) : HandlerOut Task :=
  match s.projects.find? (fun p => p.id == args.project_id) with
  | none => { resp := .error (.NotFoundError "Project not found"), store := s }
  | some proj =>
    let newTask := newTaskRecord args newId now proj
    let tasks1 := s.tasks ++ [newTask]
    let tasks2 := linkParent (jsOrNull args.parent_task_id) newId tasks1
    { resp := .ok newTask, store := { s with tasks := tasks2 } }

structure UpdateTaskArgs where
  id : String
  title : Option String
  description : Option String
  status : Option String
  priority : Option String
  due_date : Option (Option Nat)
  assignee : Option (Option String)
  tags : Option (List String)
deriving Repr, DecidableEq

/-- The `if (args.x !== undefined) task.x = args.x` block of
`handleUpdateTask`, plus the unconditional `updated_at` refresh.  No field
value is validated. -/
def applyTaskUpdate (args : UpdateTaskArgs) (now : Nat) (t : Task) : Task :=
  { t with
    title := match args.title with | some v => some v | none => t.title
    description := args.description.getD t.description
    status := args.status.getD t.status
    priority := args.priority.getD t.priority
    due_date := match args.due_date with | some v => v | none => t.due_date
    assignee := match args.assignee with | some v => v | none => t.assignee
    tags := args.tags.getD t.tags
    updated_at := now }

def handleUpdateTask (args : UpdateTaskArgs) (now : Nat) (s : Store) :
    HandlerOut Task :=
  match s.tasks.find? (fun t => t.id == args.id) with
  | none => { resp := .error (.NotFoundError "Task not found"), store := s }
  | some t =>
    { resp := .ok (applyTaskUpdate args now t)
      store := { s with
        tasks := updateFirst (fun x => x.id == args.id)
          (applyTaskUpdate args now) s.tasks } }

structure DeleteTaskArgs where
  id : String
deriving Repr, DecidableEq

/-- The `if (deletedTask.parent_task_id) { ... parent.subtasks.filter }`
block of `handleDeleteTask`: when the deleted task had a truthy parent id
that still resolves (after the removal), filter the deleted id out of the
first matching task's `subtasks`. -/
def unlinkParent (parentO : Option String) (dtid : String) (l : List Task) :
    List Task :=
  match parentO with
  | some pid =>
    if pid ≠ "" then
      match l.find? (fun t => t.id == pid) with
      | some _ => updateFirst (fun t => t.id == pid)
          (fun t => { t with subtasks := t.subtasks.filter (fun i => !(i == dtid)) })
          l
      | none => l
    else l
  | none => l

/-- `handleDeleteTask`: removes the first task with the given id, then
unlinks it from its parent's `subtasks`. -/
def handleDeleteTask (args : DeleteTaskArgs) (s : Store) : HandlerOut Task :=
  match s.tasks.find? (fun t => t.id == args.id) with
  | none => { resp := .error (.NotFoundError "Task not found"), store := s }
  | some dt =>
    let tasks1 := removeFirst (fun t => t.id == args.id) s.tasks
    let tasks2 := unlinkParent dt.parent_task_id dt.id tasks1
    { resp := .ok dt, store := { s with tasks := tasks2 } }

structure MoveTaskArgs where
  task_id : String
  new_project_id : String
deriving Repr, DecidableEq

/-- `handleMoveTask`: both ids must resolve; then the task's `project_id`,
cached `project_name` and `updated_at` are reassigned. -/
def handleMoveTask (args : MoveTaskArgs) (now : Nat) (s : Store) :
    HandlerOut Task :=
  match s.tasks.find? (fun t => t.id == args.task_id) with
  | none => { resp := .error (.NotFoundError "Task not found"), store := s }
  | some t =>
    match s.projects.find? (fun p => p.id == args.new_project_id) with
    | none =>
      { resp := .error (.NotFoundError "New project not found"), store := s }
    | some np =>
      let upd := fun (x : Task) =>
        { x with project_id := args.new_project_id
                 project_name := np.name
                 updated_at := now }
      { resp := .ok (upd t)
        store := { s with
          tasks := updateFirst (fun x => x.id == args.task_id) upd s.tasks } }

structure GetProjectSummaryArgs where
  id : String
deriving Repr, DecidableEq

structure SummaryStats where
  total_tasks : Nat
  todo : Nat
  in_progress : Nat
  done : Nat
  completion_percentage : Nat
deriving Repr, DecidableEq

structure PriorityCounts where
  urgent : Nat
  high : Nat
  medium : Nat
  low : Nat
deriving Repr, DecidableEq

structure ProjectSummary where
  project : Project
  statistics : SummaryStats
  tasks_by_priority : PriorityCounts
  recent_tasks : List Task
deriving Repr, DecidableEq

/-- `Math.round((done / total) * 100)` for `total > 0`, else `0`; over
exact arithmetic `Math.round x = ⌊x + 1/2⌋`, and
`⌊100 * d / t + 1/2⌋ = (200 * d + t) / (2 * t)` in `Nat` division. -/
def completionPercentage (done total : Nat) : Nat :=
  if 0 < total then (200 * done + total) / (2 * total) else 0

/-- The comparator `new Date(b.updated_at) - new Date(a.updated_at)`
(descending recency). -/
def recentCmp (a b : Task) : Int := (b.updated_at : Int) - (a.updated_at : Int)

/-- `handleGetProjectSummary` (read-only). -/
def handleGetProjectSummary (args : GetProjectSummaryArgs) (s : Store) :
    Except StoreError ProjectSummary :=
  match s.projects.find? (fun p => p.id == args.id) with
  | none => .error (.NotFoundError "Project not found")
  | some project =>
    let pt := s.tasks.filter (fun t => t.project_id == args.id)
    .ok
      { project := project
        statistics :=
          { total_tasks := pt.length
            todo := (pt.filter (fun t => t.status == "todo")).length
            in_progress := (pt.filter (fun t => t.status == "in_progress")).length
            done := (pt.filter (fun t => t.status == "done")).length
            completion_percentage :=
              completionPercentage
                (pt.filter (fun t => t.status == "done")).length pt.length }
        tasks_by_priority :=
          { urgent := (pt.filter (fun t => t.priority == "urgent")).length
            high := (pt.filter (fun t => t.priority == "high")).length
            medium := (pt.filter (fun t => t.priority == "medium")).length
            low := (pt.filter (fun t => t.priority == "low")).length }
        recent_tasks := (sortByCmp recentCmp pt).take 5 }

/-! ### Generic list lemmas for the handler combinators -/

theorem updateFirst_map (g : α → β) (p : α → Bool) (f : α → α)
    (hf : ∀ x, g (f x) = g x) :
    ∀ l : List α, (updateFirst p f l).map g = l.map g := by
  intro l
  induction l with
  | nil => rfl
  | cons x xs ih =>
    by_cases hx : p x = true
    · simp [updateFirst, hx, hf]
    · simp [updateFirst, hx, ih]

theorem mem_updateFirst {p : α → Bool} {f : α → α} {x : α} :
    ∀ {l : List α}, x ∈ updateFirst p f l →
      x ∈ l ∨ ∃ y, y ∈ l ∧ p y = true ∧ x = f y := by
  intro l
  induction l with
  | nil => intro h; simp [updateFirst] at h
  | cons a as ih =>
    intro h
    cases hpa : p a with
    | true =>
      simp only [updateFirst, hpa, if_true, List.mem_cons] at h
      rcases h with h | h
      · exact Or.inr ⟨a, List.mem_cons_self a as, hpa, h⟩
      · exact Or.inl (List.mem_cons_of_mem a h)
    | false =>
      simp only [updateFirst, hpa, Bool.false_eq_true, if_false,
        List.mem_cons] at h
      rcases h with h | h
      · exact Or.inl (h ▸ List.mem_cons_self a as)
      · rcases ih h with h2 | ⟨y, hy, hpy, hxy⟩
        · exact Or.inl (List.mem_cons_of_mem a h2)
        · exact Or.inr ⟨y, List.mem_cons_of_mem a hy, hpy, hxy⟩

theorem find?_decomp {p : α → Bool} {a : α} :
    ∀ {l : List α}, l.find? p = some a →
      ∃ l1 l2, l = l1 ++ a :: l2 ∧ ∀ x ∈ l1, p x = false := by
  intro l
  induction l with
  | nil => intro h; simp at h
  | cons x xs ih =>
    intro h
    by_cases hx : p x = true
    · rw [List.find?_cons_of_pos _ hx] at h
      obtain rfl : x = a := Option.some.inj h
      exact ⟨[], xs, rfl, by simp⟩
    · rw [List.find?_cons_of_neg _ hx] at h
      rcases ih h with ⟨l1, l2, heq, hall⟩
      refine ⟨x :: l1, l2, by simp [heq], ?_⟩
      intro y hy
      rcases List.mem_cons.1 hy with hy | hy
      · simpa [hy] using Bool.eq_false_iff.2 hx
      · exact hall y hy

theorem updateFirst_append_cons (p : α → Bool) (f : α → α) {l1 : List α}
    (a : α) (l2 : List α) (h : ∀ x ∈ l1, p x = false) (ha : p a = true) :
    updateFirst p f (l1 ++ a :: l2) = l1 ++ f a :: l2 := by
  induction l1 with
  | nil => simp [updateFirst, ha]
  | cons x xs ih =>
    have hx : p x = false := h x (List.mem_cons_self x xs)
    simp only [List.cons_append, updateFirst, hx]
    simp [ih (fun y hy => h y (List.mem_cons_of_mem x hy))]

theorem removeFirst_append_cons (p : α → Bool) {l1 : List α}
    (a : α) (l2 : List α) (h : ∀ x ∈ l1, p x = false) (ha : p a = true) :
    removeFirst p (l1 ++ a :: l2) = l1 ++ l2 := by
  induction l1 with
  | nil => simp [removeFirst, ha]
  | cons x xs ih =>
    have hx : p x = false := h x (List.mem_cons_self x xs)
    simp only [List.cons_append, removeFirst, hx]
    simp [ih (fun y hy => h y (List.mem_cons_of_mem x hy))]

theorem perm_orderedInsertCmp (c : α → α → Int) (x : α) :
    ∀ l : List α, List.Perm (orderedInsertCmp c x l) (x :: l) := by
  intro l
  induction l with
  | nil => exact List.Perm.refl _
  | cons y ys ih =>
    by_cases h : c x y ≤ 0
    · simp [orderedInsertCmp, h]
    · simp only [orderedInsertCmp, h, if_false]
      exact ((ih.cons y).trans (List.Perm.swap x y ys))

theorem perm_sortByCmp (c : α → α → Int) :
    ∀ l : List α, List.Perm (sortByCmp c l) l := by
  intro l
  induction l with
  | nil => exact List.Perm.refl _
  | cons x xs ih =>
    exact (perm_orderedInsertCmp c x (sortByCmp c xs)).trans (ih.cons x)

theorem mem_sortByCmp {c : α → α → Int} {x : α} {l : List α} :
    x ∈ sortByCmp c l ↔ x ∈ l :=
  (perm_sortByCmp c l).mem_iff

theorem mem_orderedInsertCmp {c : α → α → Int} {x y : α} {l : List α}
    (h : y ∈ orderedInsertCmp c x l) : y = x ∨ y ∈ l := by
  have := (perm_orderedInsertCmp c x l).mem_iff.1 h
  simpa using this

theorem pairwise_orderedInsertCmp {c : α → α → Int} {R : α → α → Prop}
    (hR : Transitive R) (x : α) :
    ∀ {l : List α}, l.Pairwise R →
      (∀ b ∈ l, (c x b ≤ 0 → R x b) ∧ (¬ c x b ≤ 0 → R b x)) →
      (orderedInsertCmp c x l).Pairwise R := by
  intro l
  induction l with
  | nil => intro _ _; simp [orderedInsertCmp]
  | cons y ys ih =>
    intro hp hcmp
    rcases List.pairwise_cons.1 hp with ⟨hy, hys⟩
    by_cases h : c x y ≤ 0
    · have hxy : R x y := (hcmp y (List.mem_cons_self y ys)).1 h
      simp only [orderedInsertCmp, h, if_true]
      refine List.pairwise_cons.2 ⟨?_, hp⟩
      intro b hb
      rcases List.mem_cons.1 hb with hb | hb
      · exact hb ▸ hxy
      · exact hR hxy (hy b hb)
    · have hyx : R y x := (hcmp y (List.mem_cons_self y ys)).2 h
      simp only [orderedInsertCmp, h, if_false]
      refine List.pairwise_cons.2 ⟨?_, ?_⟩
      · intro b hb
        rcases mem_orderedInsertCmp hb with hb | hb
        · exact hb ▸ hyx
        · exact hy b hb
      · exact ih hys (fun b hb => hcmp b (List.mem_cons_of_mem y hb))

theorem pairwise_sortByCmp {c : α → α → Int} {R : α → α → Prop}
    (hR : Transitive R)
    (hc : ∀ a b, (c a b ≤ 0 → R a b) ∧ (¬ c a b ≤ 0 → R b a)) :
    ∀ l : List α, (sortByCmp c l).Pairwise R := by
  intro l
  induction l with
  | nil => simp [sortByCmp]
  | cons x xs ih =>
    exact pairwise_orderedInsertCmp hR x ih (fun b _ => hc x b)

theorem removeFirst_eq_filter (g : α → β) [DecidableEq β] (k : β) :
    ∀ l : List α, (l.map g).Nodup → (∃ a ∈ l, g a = k) →
      removeFirst (fun x => g x == k) l = l.filter (fun x => !(g x == k)) := by
  intro l
  induction l with
  | nil => intro _ _; rfl
  | cons x xs ih =>
    intro hnd hex
    obtain ⟨hx, hxs⟩ :
        (∀ y ∈ xs, ¬ g y = g x) ∧ (List.map g xs).Nodup := by simpa using hnd
    by_cases hgx : g x = k
    · have hall : ∀ y ∈ xs, g y ≠ k :=
        fun y hy h => hx y hy (h.trans hgx.symm)
      have hfil : xs.filter (fun y => !(g y == k)) = xs :=
        List.filter_eq_self.2 (fun y hy => by simpa using hall y hy)
      simp [removeFirst, List.filter_cons, hgx, hfil]
    · have hrec : ∃ a ∈ xs, g a = k := by
        rcases hex with ⟨a, ha, hak⟩
        rcases List.mem_cons.1 ha with ha | ha
        · exact absurd (ha ▸ hak) hgx
        · exact ⟨a, ha, hak⟩
      simp [removeFirst, List.filter_cons, hgx, ih hxs hrec]

/-! ### C1: `create_task` with an unknown `project_id` -/

/-- C1: for every store and every `create_task` request whose `project_id`
matches no existing project, the handler fails with `NotFoundError` and the
whole store — in particular the task collection — is unchanged. -/
theorem create_task_unknown_project (s : Store) (args : CreateTaskArgs)
    (newId : String) (now : Nat)
    (h : ∀ p ∈ s.projects, p.id ≠ args.project_id) :
    handleCreateTask args newId now s =
      { resp := .error (.NotFoundError "Project not found"), store := s } := by
  have hf : s.projects.find? (fun p => p.id == args.project_id) = none := by
    rw [List.find?_eq_none]
    intro p hp
    simpa using h p hp
  simp [handleCreateTask, hf]

def sampleProject : Project :=
  { id := "p1", name := some "Launch", description := "", status := "todo"
    priority := "medium", due_date := none, tags := [], created_at := 0
    updated_at := 0 }

def sampleTask : Task :=
  { id := "t1", title := some "Write copy", description := ""
    project_id := "p1", project_name := some "Launch", status := "todo"
    priority := "medium", due_date := none, assignee := none, tags := []
    parent_task_id := none, created_at := 1, updated_at := 1, subtasks := [] }

def sampleStore : Store := { projects := [sampleProject], tasks := [sampleTask] }

/-- Witness for C1 at a concrete store holding one project `"p1"` and a
request naming the unknown project `"nope"`. -/
theorem create_task_unknown_project_witness :
    handleCreateTask
      { title := some "T", description := none, project_id := "nope"
        status := none, priority := none, due_date := none, assignee := none
        tags := none, parent_task_id := none } "t9" 5 sampleStore =
      { resp := .error (.NotFoundError "Project not found")
        store := sampleStore } :=
  create_task_unknown_project sampleStore _ "t9" 5 (by decide)

/-! ### C2: the source performs no validation of required fields -/

/-- C2 (divergence witness): `create_project` with no `name` at all
succeeds and appends a record whose `name` is `undefined`, and
`create_task` with an existing project but an empty `title` succeeds and
appends the task — the source never produces a `ValidationError`,
contradicting the claimed validation of `name` and `title`. -/
theorem create_without_required_fields_succeeds :
    (handleCreateProject
        { name := none, description := none, status := none, priority := none
          due_date := none, tags := none } "p9" 7 emptyStore) =
      { resp := .ok
          { id := "p9", name := none, description := "", status := "todo"
            priority := "medium", due_date := none, tags := [], created_at := 7
            updated_at := 7 }
        store := { projects :=
          [{ id := "p9", name := none, description := "", status := "todo"
             priority := "medium", due_date := none, tags := [], created_at := 7
             updated_at := 7 }], tasks := [] } } ∧
    (handleCreateTask
        { title := some "", description := none, project_id := "p1"
          status := none, priority := none, due_date := none, assignee := none
          tags := none, parent_task_id := none } "t9" 8 sampleStore).resp =
      .ok
        { id := "t9", title := some "", description := "", project_id := "p1"
          project_name := some "Launch", status := "todo", priority := "medium"
          due_date := none, assignee := none, tags := [], parent_task_id := none
          created_at := 8, updated_at := 8, subtasks := [] } ∧
    (handleCreateTask
        { title := some "", description := none, project_id := "p1"
          status := none, priority := none, due_date := none, assignee := none
          tags := none, parent_task_id := none } "t9" 8 sampleStore).store.tasks.length = 2 :=
  ⟨rfl, rfl, rfl⟩

/-! ### C5: `update_*` merge-only semantics (frame property) -/

/-- C5: for every existing task (resp. project) and every update request,
the handler replaces the first matching record by the merged record and
nothing else; every field not present in the request keeps exactly its
previous value (non-updatable fields always do), `updated_at` is refreshed,
and an update with an empty partial changes nothing but `updated_at`. -/
theorem update_partial_frame :
    (∀ (s : Store) (args : UpdateTaskArgs) (now : Nat) (t : Task),
      s.tasks.find? (fun x => x.id == args.id) = some t →
      handleUpdateTask args now s =
        { resp := .ok (applyTaskUpdate args now t)
          store := { s with
            tasks := updateFirst (fun x => x.id == args.id)
              (applyTaskUpdate args now) s.tasks } } ∧
      (args.title = none → (applyTaskUpdate args now t).title = t.title) ∧
      (args.description = none →
        (applyTaskUpdate args now t).description = t.description) ∧
      (args.status = none → (applyTaskUpdate args now t).status = t.status) ∧
      (args.priority = none →
        (applyTaskUpdate args now t).priority = t.priority) ∧
      (args.due_date = none →
        (applyTaskUpdate args now t).due_date = t.due_date) ∧
      (args.assignee = none →
        (applyTaskUpdate args now t).assignee = t.assignee) ∧
      (args.tags = none → (applyTaskUpdate args now t).tags = t.tags) ∧
      (applyTaskUpdate args now t).id = t.id ∧
      (applyTaskUpdate args now t).project_id = t.project_id ∧
      (applyTaskUpdate args now t).project_name = t.project_name ∧
      (applyTaskUpdate args now t).parent_task_id = t.parent_task_id ∧
      (applyTaskUpdate args now t).subtasks = t.subtasks ∧
      (applyTaskUpdate args now t).created_at = t.created_at ∧
      (applyTaskUpdate args now t).updated_at = now ∧
      (args.title = none ∧ args.description = none ∧ args.status = none ∧
        args.priority = none ∧ args.due_date = none ∧ args.assignee = none ∧
        args.tags = none →
        applyTaskUpdate args now t = { t with updated_at := now })) ∧
    (∀ (s : Store) (args : UpdateProjectArgs) (now : Nat) (p : Project),
      s.projects.find? (fun x => x.id == args.id) = some p →
      handleUpdateProject args now s =
        { resp := .ok (applyProjectUpdate args now p)
          store := { s with
            projects := updateFirst (fun x => x.id == args.id)
              (applyProjectUpdate args now) s.projects } } ∧
      (args.name = none → (applyProjectUpdate args now p).name = p.name) ∧
      (args.description = none →
        (applyProjectUpdate args now p).description = p.description) ∧
      (args.status = none →
        (applyProjectUpdate args now p).status = p.status) ∧
      (args.priority = none →
        (applyProjectUpdate args now p).priority = p.priority) ∧
      (args.due_date = none →
        (applyProjectUpdate args now p).due_date = p.due_date) ∧
      (args.tags = none → (applyProjectUpdate args now p).tags = p.tags) ∧
      (applyProjectUpdate args now p).id = p.id ∧
      (applyProjectUpdate args now p).created_at = p.created_at ∧
      (applyProjectUpdate args now p).updated_at = now ∧
      (args.name = none ∧ args.description = none ∧ args.status = none ∧
        args.priority = none ∧ args.due_date = none ∧ args.tags = none →
        applyProjectUpdate args now p = { p with updated_at := now })) := by
  constructor
  · intro s args now t hfind
    refine ⟨by simp [handleUpdateTask, hfind], ?_, ?_, ?_, ?_, ?_, ?_, ?_,
      by simp [applyTaskUpdate], by simp [applyTaskUpdate],
      by simp [applyTaskUpdate], by simp [applyTaskUpdate],
      by simp [applyTaskUpdate], by simp [applyTaskUpdate],
      by simp [applyTaskUpdate], ?_⟩
    · intro h; simp [applyTaskUpdate, h]
    · intro h; simp [applyTaskUpdate, h]
    · intro h; simp [applyTaskUpdate, h]
    · intro h; simp [applyTaskUpdate, h]
    · intro h; simp [applyTaskUpdate, h]
    · intro h; simp [applyTaskUpdate, h]
    · intro h; simp [applyTaskUpdate, h]
    · rintro ⟨h1, h2, h3, h4, h5, h6, h7⟩
      simp [applyTaskUpdate, h1, h2, h3, h4, h5, h6, h7]
  · intro s args now p hfind
    refine ⟨by simp [handleUpdateProject, hfind], ?_, ?_, ?_, ?_, ?_, ?_,
      by simp [applyProjectUpdate], by simp [applyProjectUpdate],
      by simp [applyProjectUpdate], ?_⟩
    · intro h; simp [applyProjectUpdate, h]
    · intro h; simp [applyProjectUpdate, h]
    · intro h; simp [applyProjectUpdate, h]
    · intro h; simp [applyProjectUpdate, h]
    · intro h; simp [applyProjectUpdate, h]
    · intro h; simp [applyProjectUpdate, h]
    · rintro ⟨h1, h2, h3, h4, h5, h6⟩
      simp [applyProjectUpdate, h1, h2, h3, h4, h5, h6]

def emptyTaskUpdate : UpdateTaskArgs :=
  { id := "t1", title := none, description := none, status := none
    priority := none, due_date := none, assignee := none, tags := none }

def emptyProjectUpdate : UpdateProjectArgs :=
  { id := "p1", name := none, description := none, status := none
    priority := none, due_date := none, tags := none }

/-- Witness for C5: an empty-partial update of the sample task and the
sample project touches only `updated_at`. -/
theorem update_partial_frame_witness :
    handleUpdateTask emptyTaskUpdate 9 sampleStore =
      { resp := .ok (applyTaskUpdate emptyTaskUpdate 9 sampleTask)
        store := { sampleStore with
          tasks := updateFirst (fun x => x.id == "t1")
            (applyTaskUpdate emptyTaskUpdate 9) sampleStore.tasks } } ∧
    applyTaskUpdate emptyTaskUpdate 9 sampleTask =
      { sampleTask with updated_at := 9 } ∧
    handleUpdateProject emptyProjectUpdate 9 sampleStore =
      { resp := .ok (applyProjectUpdate emptyProjectUpdate 9 sampleProject)
        store := { sampleStore with
          projects := updateFirst (fun x => x.id == "p1")
            (applyProjectUpdate emptyProjectUpdate 9) sampleStore.projects } } ∧
    applyProjectUpdate emptyProjectUpdate 9 sampleProject =
      { sampleProject with updated_at := 9 } := by
  obtain ⟨ht, hp⟩ := update_partial_frame
  obtain ⟨e1, _, _, _, _, _, _, _, _, _, _, _, _, _, _, elast⟩ :=
    ht sampleStore emptyTaskUpdate 9 sampleTask rfl
  obtain ⟨f1, _, _, _, _, _, _, _, _, _, flast⟩ :=
    hp sampleStore emptyProjectUpdate 9 sampleProject rfl
  exact ⟨e1, elast ⟨rfl, rfl, rfl, rfl, rfl, rfl, rfl⟩, f1,
    flast ⟨rfl, rfl, rfl, rfl, rfl, rfl⟩⟩

/-! ### C10: `update_*` perform no validation of field values -/

/-- C10: for every existing task (resp. project) and arbitrary string `str`
— including strings outside the status and priority enums — an update
setting `status` and `priority` to `str` succeeds and stores `str`
verbatim. -/
theorem update_no_validation :
    (∀ (s : Store) (idv str : String) (now : Nat) (t : Task),
      s.tasks.find? (fun x => x.id == idv) = some t →
      handleUpdateTask
        { id := idv, title := none, description := none, status := some str
          priority := some str, due_date := none, assignee := none
          tags := none } now s =
        { resp := .ok { t with status := str, priority := str, updated_at := now }
          store := { s with
            tasks := updateFirst (fun x => x.id == idv)
              (fun x => { x with status := str, priority := str, updated_at := now })
              s.tasks } }) ∧
    (∀ (s : Store) (idv str : String) (now : Nat) (p : Project),
      s.projects.find? (fun x => x.id == idv) = some p →
      handleUpdateProject
        { id := idv, name := none, description := none, status := some str
          priority := some str, due_date := none, tags := none } now s =
        { resp := .ok { p with status := str, priority := str, updated_at := now }
          store := { s with
            projects := updateFirst (fun x => x.id == idv)
              (fun x => { x with status := str, priority := str, updated_at := now })
              s.projects } }) := by
  constructor
  · intro s idv str now t hfind
    have hfun : applyTaskUpdate
        { id := idv, title := none, description := none, status := some str
          priority := some str, due_date := none, assignee := none
          tags := none } now =
        fun x => { x with status := str, priority := str, updated_at := now } := by
      funext x
      simp [applyTaskUpdate]
    simp [handleUpdateTask, hfind, hfun]
  · intro s idv str now p hfind
    have hfun : applyProjectUpdate
        { id := idv, name := none, description := none, status := some str
          priority := some str, due_date := none, tags := none } now =
        fun x => { x with status := str, priority := str, updated_at := now } := by
      funext x
      simp [applyProjectUpdate]
    simp [handleUpdateProject, hfind, hfun]

/-- Witness for C10 with the out-of-enum string `"bogus"`. -/
theorem update_no_validation_witness :
    handleUpdateTask
      { id := "t1", title := none, description := none, status := some "bogus"
        priority := some "bogus", due_date := none, assignee := none
        tags := none } 3 sampleStore =
      { resp := .ok
          { sampleTask with status := "bogus", priority := "bogus", updated_at := 3 }
        store := { sampleStore with
          tasks := updateFirst (fun x => x.id == "t1")
            (fun x => { x with status := "bogus", priority := "bogus", updated_at := 3 })
            sampleStore.tasks } } ∧
    handleUpdateProject
      { id := "p1", name := none, description := none, status := some "bogus"
        priority := some "bogus", due_date := none, tags := none } 3 sampleStore =
      { resp := .ok
          { sampleProject with status := "bogus", priority := "bogus", updated_at := 3 }
        store := { sampleStore with
          projects := updateFirst (fun x => x.id == "p1")
            (fun x => { x with status := "bogus", priority := "bogus", updated_at := 3 })
            sampleStore.projects } } :=
  ⟨update_no_validation.1 sampleStore "t1" "bogus" 3 sampleTask rfl,
   update_no_validation.2 sampleStore "p1" "bogus" 3 sampleProject rfl⟩

/-! ### C7: `move_task` atomicity and effect -/

/-- C7: `move_task` with an unresolved `task_id` or `new_project_id` fails
with `NotFoundError` leaving the entire store unchanged; when both resolve
it rewrites exactly the task's `project_id`, cached `project_name` and
`updated_at` (all other fields and entities untouched). -/
theorem move_task_spec :
    (∀ (s : Store) (args : MoveTaskArgs) (now : Nat),
      s.tasks.find? (fun t => t.id == args.task_id) = none →
      handleMoveTask args now s =
        { resp := .error (.NotFoundError "Task not found"), store := s }) ∧
    (∀ (s : Store) (args : MoveTaskArgs) (now : Nat) (t : Task),
      s.tasks.find? (fun t => t.id == args.task_id) = some t →
      s.projects.find? (fun p => p.id == args.new_project_id) = none →
      handleMoveTask args now s =
        { resp := .error (.NotFoundError "New project not found"), store := s }) ∧
    (∀ (s : Store) (args : MoveTaskArgs) (now : Nat) (t : Task) (np : Project),
      s.tasks.find? (fun t => t.id == args.task_id) = some t →
      s.projects.find? (fun p => p.id == args.new_project_id) = some np →
      handleMoveTask args now s =
        { resp := .ok { t with project_id := args.new_project_id
                               project_name := np.name, updated_at := now }
          store := { s with
            tasks := updateFirst (fun x => x.id == args.task_id)
              (fun x => { x with project_id := args.new_project_id
                                 project_name := np.name, updated_at := now })
              s.tasks } }) := by
  refine ⟨?_, ?_, ?_⟩
  · intro s args now h
    simp [handleMoveTask, h]
  · intro s args now t h1 h2
    simp [handleMoveTask, h1, h2]
  · intro s args now t np h1 h2
    simp [handleMoveTask, h1, h2]

def sampleProject2 : Project :=
  { id := "p2", name := some "Ops", description := "", status := "todo"
    priority := "medium", due_date := none, tags := [], created_at := 0
    updated_at := 0 }

def sampleStore2 : Store :=
  { projects := [sampleProject, sampleProject2], tasks := [sampleTask] }

/-- Witness for C7: moving the sample task to the unknown project `"zzz"`
fails and changes nothing; moving it to the existing project `"p2"`
rewrites exactly the three fields. -/
theorem move_task_spec_witness :
    handleMoveTask { task_id := "t1", new_project_id := "zzz" } 4 sampleStore2 =
      { resp := .error (.NotFoundError "New project not found")
        store := sampleStore2 } ∧
    handleMoveTask { task_id := "t1", new_project_id := "p2" } 4 sampleStore2 =
      { resp := .ok { sampleTask with
          project_id := "p2", project_name := some "Ops", updated_at := 4 }
        store := { sampleStore2 with
          tasks := updateFirst (fun x => x.id == "t1")
            (fun x => { x with project_id := "p2", project_name := some "Ops"
                               updated_at := 4 }) sampleStore2.tasks } } :=
  ⟨move_task_spec.2.1 sampleStore2 { task_id := "t1", new_project_id := "zzz" }
      4 sampleTask rfl rfl,
   move_task_spec.2.2 sampleStore2 { task_id := "t1", new_project_id := "p2" }
      4 sampleTask sampleProject2 rfl rfl⟩

/-! ### C4: result ordering of the list endpoints -/

theorem prioDueCmp_asym (pa pb : String) (da db : Option Nat)
    (h : ¬ prioDueCmp pa pb da db ≤ 0) : prioDueCmp pb pa db da ≤ 0 := by
  unfold prioDueCmp at h ⊢
  by_cases hp : pa = pb
  · subst hp
    simp only [ne_eq, not_true_eq_false, if_false] at h ⊢
    cases da <;> cases db <;> simp_all <;> omega
  · simp only [ne_eq, hp, Ne.symm hp, not_false_eq_true, if_true] at h ⊢
    cases hra : priorityRank pa <;> cases hrb : priorityRank pb <;>
      simp_all <;> omega

theorem prioDueCmp_rank {pa pb : String} (da db : Option Nat) {ra rb : Nat}
    (ha : priorityRank pa = some ra) (hb : priorityRank pb = some rb) :
    (prioDueCmp pa pb da db ≤ 0 → ra ≤ rb) ∧
    (¬ prioDueCmp pa pb da db ≤ 0 → rb ≤ ra) := by
  unfold prioDueCmp
  by_cases hp : pa = pb
  · subst hp
    rw [ha] at hb
    obtain rfl := Option.some.inj hb
    constructor <;> intro <;> exact le_refl ra
  · simp only [ne_eq, hp, not_false_eq_true, if_true, ha, hb]
    constructor <;> intro h <;> omega

theorem chain_orderedInsertCmp {c : α → α → Int}
    (hasym : ∀ a b, ¬ c a b ≤ 0 → c b a ≤ 0) (x : α) :
    ∀ {l : List α}, List.Chain' (fun a b => c a b ≤ 0) l →
      List.Chain' (fun a b => c a b ≤ 0) (orderedInsertCmp c x l) := by
  intro l
  induction l with
  | nil => intro _; simp [orderedInsertCmp]
  | cons y ys ih =>
    intro hch
    by_cases hxy : c x y ≤ 0
    · simp only [orderedInsertCmp, hxy, if_true]
      exact List.chain'_cons.2 ⟨hxy, hch⟩
    · simp only [orderedInsertCmp, hxy, if_false]
      have hyx : c y x ≤ 0 := hasym x y hxy
      have hins := ih hch.tail
      cases ys with
      | nil => simpa [orderedInsertCmp] using hyx
      | cons z zs =>
        by_cases hxz : c x z ≤ 0
        · rw [orderedInsertCmp, if_pos hxz] at hins ⊢
          exact List.chain'_cons.2 ⟨hyx, hins⟩
        · rw [orderedInsertCmp, if_neg hxz] at hins ⊢
          exact List.chain'_cons.2 ⟨(List.chain'_cons.1 hch).1, hins⟩

theorem chain_sortByCmp {c : α → α → Int}
    (hasym : ∀ a b, ¬ c a b ≤ 0 → c b a ≤ 0) :
    ∀ l : List α, List.Chain' (fun a b => c a b ≤ 0) (sortByCmp c l) := by
  intro l
  induction l with
  | nil => simp [sortByCmp]
  | cons x xs ih => exact chain_orderedInsertCmp hasym x ih

theorem pairwise_sortByCmp_mem {c : α → α → Int} {R : α → α → Prop}
    (hR : Transitive R) :
    ∀ l : List α,
      (∀ a ∈ l, ∀ b ∈ l, (c a b ≤ 0 → R a b) ∧ (¬ c a b ≤ 0 → R b a)) →
      (sortByCmp c l).Pairwise R := by
  intro l
  induction l with
  | nil => intro _; simp [sortByCmp]
  | cons x xs ih =>
    intro hc
    refine pairwise_orderedInsertCmp hR x
      (ih (fun a ha b hb => hc a (List.mem_cons_of_mem x ha)
        b (List.mem_cons_of_mem x hb))) ?_
    intro b hb
    have hbxs : b ∈ xs := (perm_sortByCmp c xs).mem_iff.1 hb
    exact hc x (List.mem_cons_self x xs) b (List.mem_cons_of_mem x hbxs)

theorem mem_enumFilter {v : Option String} {get : α → String} {l : List α}
    {x : α} (h : x ∈ enumFilter v get l) : x ∈ l := by
  cases v with
  | none => simpa [enumFilter] using h
  | some s =>
    simp only [enumFilter] at h
    by_cases hs : s ≠ "" ∧ s ≠ "all"
    · rw [if_pos hs] at h
      exact List.mem_of_mem_filter h
    · rwa [if_neg hs] at h

theorem mem_projectIdFilter {v : Option String} {l : List Task} {x : Task}
    (h : x ∈ projectIdFilter v l) : x ∈ l := by
  cases v with
  | none => simpa [projectIdFilter] using h
  | some pid =>
    simp only [projectIdFilter] at h
    by_cases hp : pid ≠ ""
    · rw [if_pos hp] at h
      exact List.mem_of_mem_filter h
    · rwa [if_neg hp] at h

def dueTieA : Project :=
  { id := "a", name := some "A", description := "", status := "todo"
    priority := "medium", due_date := none, tags := [], created_at := 0
    updated_at := 0 }

def dueTieB : Project :=
  { id := "b", name := some "B", description := "", status := "todo"
    priority := "medium", due_date := some 5, tags := [], created_at := 0
    updated_at := 0 }

def dueTieStore : Store := { projects := [dueTieA, dueTieB], tasks := [] }

/-- C4 counterexample: two projects of equal priority, the first without a
due date and the second with one, are returned in encounter order — the
entry without a due date is NOT placed after the one with a due date, so
the claimed ordering rule is false on the code. -/
theorem list_projects_missing_due_keeps_order :
    dueTieA.priority = dueTieB.priority ∧
    dueTieA.due_date = none ∧ dueTieB.due_date = some 5 ∧
    (handleListProjects { status := none } dueTieStore).map
      (fun p => p.id) = ["a", "b"] ∧
    ¬ (handleListProjects { status := none } dueTieStore).map
      (fun p => p.id) = ["b", "a"] := by
  refine ⟨rfl, rfl, rfl, rfl, ?_⟩
  decide

def exLow : Project :=
  { id := "l", name := some "L", description := "", status := "todo"
    priority := "low", due_date := none, tags := [], created_at := 0
    updated_at := 0 }

def exUrgent : Project :=
  { id := "u", name := some "U", description := "", status := "todo"
    priority := "urgent", due_date := none, tags := [], created_at := 0
    updated_at := 0 }

def exMedium : Project :=
  { id := "m", name := some "M", description := "", status := "todo"
    priority := "medium", due_date := none, tags := [], created_at := 0
    updated_at := 0 }

def exStore : Store := { projects := [exLow, exUrgent, exMedium], tasks := [] }

/-- C4 amended: each list endpoint returns a permutation of its filtered,
annotated collection, stably sorted by the shared comparator: priority
rank urgent < high < medium < low first; on a priority tie the comparator
orders by ascending due date when both sides have one and otherwise
reports a tie, so entries lacking a due date keep encounter order (rather
than sorting after entries with one).  Consequently every adjacent pair of
the output is comparator-ordered, the output is globally sorted by
priority rank whenever all priorities are valid enum values, and the
projects [low, urgent, medium] without due dates come back as
[urgent, medium, low]. -/
theorem list_sorting_spec :
    (∀ (s : Store) (args : ListProjectsArgs),
      List.Perm (handleListProjects args s) (listProjectsBase args s) ∧
      List.Chain' (fun a b => projectCmp a b ≤ 0) (handleListProjects args s) ∧
      ((∀ p ∈ s.projects, (priorityRank p.priority).isSome) →
        (handleListProjects args s).Pairwise (fun a b =>
          (priorityRank a.priority).getD 0 ≤ (priorityRank b.priority).getD 0))) ∧
    (∀ (s : Store) (args : ListTasksArgs),
      List.Perm (handleListTasks args s) (listTasksBase args s) ∧
      List.Chain' (fun a b => taskCmp a b ≤ 0) (handleListTasks args s) ∧
      ((∀ t ∈ s.tasks, (priorityRank t.priority).isSome) →
        (handleListTasks args s).Pairwise (fun a b =>
          (priorityRank a.priority).getD 0 ≤ (priorityRank b.priority).getD 0))) ∧
    (handleListProjects { status := none } exStore).map (fun p => p.id) =
      ["u", "m", "l"] := by
  have htrans : ∀ {β : Type} (rank : β → Nat),
      Transitive (fun a b : β => rank a ≤ rank b) :=
    fun rank _ _ _ hab hbc => le_trans hab hbc
  refine ⟨?_, ?_, by decide⟩
  · intro s args
    refine ⟨perm_sortByCmp projectCmp (listProjectsBase args s),
      chain_sortByCmp (fun a b => prioDueCmp_asym a.priority b.priority
        a.due_date b.due_date) (listProjectsBase args s), ?_⟩
    intro hvalid
    refine pairwise_sortByCmp_mem
      (htrans (fun a : ProjectWithCounts => (priorityRank a.priority).getD 0))
      (listProjectsBase args s) ?_
    intro a ha b hb
    have hav : (priorityRank a.priority).isSome := by
      rcases List.mem_map.1 ha with ⟨p, hp, rfl⟩
      exact hvalid p (mem_enumFilter hp)
    have hbv : (priorityRank b.priority).isSome := by
      rcases List.mem_map.1 hb with ⟨p, hp, rfl⟩
      exact hvalid p (mem_enumFilter hp)
    rcases Option.isSome_iff_exists.1 hav with ⟨ra, hra⟩
    rcases Option.isSome_iff_exists.1 hbv with ⟨rb, hrb⟩
    have := prioDueCmp_rank a.due_date b.due_date hra hrb
    simp only [projectCmp, hra, hrb, Option.getD_some]
    exact this
  · intro s args
    refine ⟨perm_sortByCmp taskCmp (listTasksBase args s),
      chain_sortByCmp (fun a b => prioDueCmp_asym a.priority b.priority
        a.due_date b.due_date) (listTasksBase args s), ?_⟩
    intro hvalid
    refine pairwise_sortByCmp_mem
      (htrans (fun a : Task => (priorityRank a.priority).getD 0))
      (listTasksBase args s) ?_
    intro a ha b hb
    have hmem : ∀ x : Task, x ∈ listTasksBase args s →
        (priorityRank x.priority).isSome := by
      intro x hx
      unfold listTasksBase at hx
      rcases List.mem_map.1 hx with ⟨t, ht, rfl⟩
      exact hvalid t (mem_projectIdFilter (mem_enumFilter (mem_enumFilter ht)))
    rcases Option.isSome_iff_exists.1 (hmem a ha) with ⟨ra, hra⟩
    rcases Option.isSome_iff_exists.1 (hmem b hb) with ⟨rb, hrb⟩
    have := prioDueCmp_rank a.due_date b.due_date hra hrb
    simp only [taskCmp, hra, hrb, Option.getD_some]
    exact this

/-- Witness for C4 (amended) instantiating the rank-sortedness part on the
three-project example store, whose priorities are all valid. -/
theorem list_sorting_spec_witness :
    (handleListProjects { status := none } exStore).Pairwise (fun a b =>
      (priorityRank a.priority).getD 0 ≤ (priorityRank b.priority).getD 0) ∧
    List.Perm (handleListProjects { status := none } exStore)
      (listProjectsBase { status := none } exStore) :=
  ⟨(list_sorting_spec.1 exStore { status := none }).2.2 (by decide),
   (list_sorting_spec.1 exStore { status := none }).1⟩

/-! ### C6: cascade `delete_project` -/

/-- C6: for an existing project id (ids are generated uuid strings, hence
non-empty and duplicate-free), cascade deletion removes the project and
exactly the tasks whose `project_id` equals the id — the response carries
the removed tasks, whose number is the reported count — leaves every other
project and task unchanged, and a subsequent `list_tasks(project_id=id)`
returns the empty sequence; an unknown id fails with `NotFoundError` and
changes nothing. -/
theorem delete_project_cascade :
    (∀ (s : Store) (idv : String) (p : Project),
      s.projects.find? (fun q => q.id == idv) = some p →
      (s.projects.map Project.id).Nodup →
      idv ≠ "" →
      handleDeleteProject { id := idv, delete_tasks := true } s =
        { resp := .ok
            { project := p
              deleted_tasks :=
                some (s.tasks.filter (fun t => t.project_id == idv)) }
          store :=
            { projects := s.projects.filter (fun q => !(q.id == idv))
              tasks := s.tasks.filter (fun t => !(t.project_id == idv)) } } ∧
      handleListTasks { project_id := some idv, status := none, priority := none }
        (handleDeleteProject { id := idv, delete_tasks := true } s).store = []) ∧
    (∀ (s : Store) (idv : String),
      s.projects.find? (fun q => q.id == idv) = none →
      handleDeleteProject { id := idv, delete_tasks := true } s =
        { resp := .error (.NotFoundError "Project not found"), store := s }) := by
  constructor
  · intro s idv p hfind hnd hne
    have hmem : ∃ a ∈ s.projects, a.id = idv :=
      ⟨p, List.mem_of_find?_eq_some hfind, by simpa using List.find?_some hfind⟩
    have hremove : removeFirst (fun q => q.id == idv) s.projects =
        s.projects.filter (fun q => !(q.id == idv)) :=
      removeFirst_eq_filter Project.id idv s.projects hnd hmem
    constructor
    · simp [handleDeleteProject, hfind, hremove]
    · simp [handleDeleteProject, hfind, hremove, handleListTasks,
        listTasksBase, projectIdFilter, hne, enumFilter, List.filter_filter,
        sortByCmp]
  · intro s idv hfind
    simp [handleDeleteProject, hfind]

/-- Witness for C6: cascading away project `"p1"` from the sample store
empties both collections, and deleting the unknown `"zzz"` fails. -/
theorem delete_project_cascade_witness :
    (handleDeleteProject { id := "p1", delete_tasks := true } sampleStore =
      { resp := .ok
          { project := sampleProject
            deleted_tasks :=
              some (sampleStore.tasks.filter (fun t => t.project_id == "p1")) }
        store :=
          { projects := sampleStore.projects.filter (fun q => !(q.id == "p1"))
            tasks := sampleStore.tasks.filter (fun t => !(t.project_id == "p1")) } } ∧
      handleListTasks { project_id := some "p1", status := none, priority := none }
        (handleDeleteProject { id := "p1", delete_tasks := true } sampleStore).store
        = []) ∧
    handleDeleteProject { id := "zzz", delete_tasks := true } sampleStore =
      { resp := .error (.NotFoundError "Project not found")
        store := sampleStore } :=
  ⟨delete_project_cascade.1 sampleStore "p1" sampleProject rfl (by decide)
      (by decide),
   delete_project_cascade.2 sampleStore "zzz" rfl⟩

/-! ### C9: the cached `project_name` of tasks goes stale on rename -/

/-- C9: `update_project` never touches the task collection (so a rename
leaves every task's cached `project_name` holding the old name),
`update_task` never writes any task's `project_name`, and `list_tasks`
recomputes the displayed name of every returned task from the live project
collection at read time. -/
theorem project_name_cache_stale :
    (∀ (s : Store) (args : UpdateProjectArgs) (now : Nat),
      (handleUpdateProject args now s).store.tasks = s.tasks) ∧
    (∀ (s : Store) (args : UpdateTaskArgs) (now : Nat),
      ((handleUpdateTask args now s).store.tasks).map Task.project_name =
        s.tasks.map Task.project_name) ∧
    (∀ (s : Store) (args : ListTasksArgs) (x : Task),
      x ∈ handleListTasks args s →
      x.project_name = projectNameFor s.projects x.project_id) := by
  refine ⟨?_, ?_, ?_⟩
  · intro s args now
    cases hfind : s.projects.find? (fun p => p.id == args.id) <;>
      simp [handleUpdateProject, hfind]
  · intro s args now
    cases hfind : s.tasks.find? (fun t => t.id == args.id) with
    | none => simp [handleUpdateTask, hfind]
    | some t =>
      simp only [handleUpdateTask, hfind]
      exact updateFirst_map Task.project_name _ _
        (fun x => by simp [applyTaskUpdate]) s.tasks
  · intro s args x hx
    simp only [handleListTasks, listTasksBase] at hx
    rw [mem_sortByCmp] at hx
    rcases List.mem_map.1 hx with ⟨t, ht, rfl⟩
    rfl

/-- Witness for C9's read-time recomputation at the sample store (the
annotated sample task is its own annotation, its cache being fresh). -/
theorem project_name_cache_stale_witness :
    sampleTask ∈ handleListTasks
      { project_id := none, status := none, priority := none } sampleStore ∧
    sampleTask.project_name =
      projectNameFor sampleStore.projects sampleTask.project_id :=
  ⟨by decide,
   project_name_cache_stale.2.2 sampleStore
     { project_id := none, status := none, priority := none } sampleTask
     (by decide)⟩

/-! ### C8: `get_project_summary` -/

theorem recentCmp_trans :
    Transitive (fun a b : Task => b.updated_at ≤ a.updated_at) :=
  fun _ _ _ hab hbc => le_trans hbc hab

theorem recentCmp_agrees (a b : Task) :
    (recentCmp a b ≤ 0 → b.updated_at ≤ a.updated_at) ∧
    (¬ recentCmp a b ≤ 0 → a.updated_at ≤ b.updated_at) := by
  unfold recentCmp
  omega

/-- C8: `get_project_summary` of an unknown id fails with `NotFoundError`;
of an existing project it returns the project together with total,
per-status and per-priority counts over the project's tasks, the
completion percentage, and the project's tasks stably sorted by descending
`updated_at` truncated to five; the completion percentage is
`Math.round(done / total * 100)` (`⌊x + 1/2⌋` over exact arithmetic) when
`total > 0` and exactly `0` — not `NaN` or an error — when the project has
no tasks; the recency sort is a permutation, is sorted descending, and
every task left out is no more recent than every task kept. -/
theorem get_project_summary_spec :
    (∀ (s : Store) (idv : String),
      s.projects.find? (fun p => p.id == idv) = none →
      handleGetProjectSummary { id := idv } s =
        .error (.NotFoundError "Project not found")) ∧
    (∀ (s : Store) (idv : String) (project : Project),
      s.projects.find? (fun p => p.id == idv) = some project →
      handleGetProjectSummary { id := idv } s = .ok
        { project := project
          statistics :=
            { total_tasks := (s.tasks.filter (fun t => t.project_id == idv)).length
              todo := ((s.tasks.filter (fun t => t.project_id == idv)).filter
                (fun t => t.status == "todo")).length
              in_progress := ((s.tasks.filter (fun t => t.project_id == idv)).filter
                (fun t => t.status == "in_progress")).length
              done := ((s.tasks.filter (fun t => t.project_id == idv)).filter
                (fun t => t.status == "done")).length
              completion_percentage := completionPercentage
                ((s.tasks.filter (fun t => t.project_id == idv)).filter
                  (fun t => t.status == "done")).length
                (s.tasks.filter (fun t => t.project_id == idv)).length }
          tasks_by_priority :=
            { urgent := ((s.tasks.filter (fun t => t.project_id == idv)).filter
                (fun t => t.priority == "urgent")).length
              high := ((s.tasks.filter (fun t => t.project_id == idv)).filter
                (fun t => t.priority == "high")).length
              medium := ((s.tasks.filter (fun t => t.project_id == idv)).filter
                (fun t => t.priority == "medium")).length
              low := ((s.tasks.filter (fun t => t.project_id == idv)).filter
                (fun t => t.priority == "low")).length }
          recent_tasks := (sortByCmp recentCmp
            (s.tasks.filter (fun t => t.project_id == idv))).take 5 }) ∧
    (∀ done total : Nat, 0 < total →
      completionPercentage done total =
        ⌊((done : ℚ) / (total : ℚ)) * 100 + 1 / 2⌋₊) ∧
    (∀ done : Nat, completionPercentage done 0 = 0) ∧
    (∀ l : List Task,
      List.Perm (sortByCmp recentCmp l) l ∧
      (sortByCmp recentCmp l).Pairwise
        (fun a b => b.updated_at ≤ a.updated_at) ∧
      (∀ a ∈ (sortByCmp recentCmp l).take 5,
        ∀ b ∈ (sortByCmp recentCmp l).drop 5,
        b.updated_at ≤ a.updated_at)) := by
  refine ⟨?_, ?_, ?_, ?_, ?_⟩
  · intro s idv hfind
    simp [handleGetProjectSummary, hfind]
  · intro s idv project hfind
    simp [handleGetProjectSummary, hfind]
  · intro d t ht
    have htQ : ((t : ℚ)) ≠ 0 := by
      exact_mod_cast Nat.pos_iff_ne_zero.1 ht
    have heq : ((d : ℚ) / (t : ℚ)) * 100 + 1 / 2 =
        ((200 * d + t : ℕ) : ℚ) / ((2 * t : ℕ) : ℚ) := by
      push_cast
      field_simp
      ring
    rw [completionPercentage, if_pos ht, heq, Nat.floor_div_nat,
      Nat.floor_natCast]
  · intro d
    simp [completionPercentage]
  · intro l
    have hsorted : (sortByCmp recentCmp l).Pairwise
        (fun a b => b.updated_at ≤ a.updated_at) :=
      pairwise_sortByCmp recentCmp_trans recentCmp_agrees l
    refine ⟨perm_sortByCmp recentCmp l, hsorted, ?_⟩
    intro a ha b hb
    have h2 : ((sortByCmp recentCmp l).take 5 ++
        (sortByCmp recentCmp l).drop 5).Pairwise
        (fun a b : Task => b.updated_at ≤ a.updated_at) := by
      rw [List.take_append_drop]
      exact hsorted
    exact (List.pairwise_append.1 h2).2.2 a ha b hb

/-- Witness for C8: the unknown id `"zzz"` fails; the sample project's
summary is the instantiated record; `Math.round(1 / 8 * 100) = 13`
(half-up) and an empty project completes at `0`. -/
theorem get_project_summary_spec_witness :
    handleGetProjectSummary { id := "zzz" } sampleStore =
      .error (.NotFoundError "Project not found") ∧
    handleGetProjectSummary { id := "p1" } sampleStore = .ok
      { project := sampleProject
        statistics :=
          { total_tasks := 1, todo := 1, in_progress := 0, done := 0
            completion_percentage := completionPercentage 0 1 }
        tasks_by_priority := { urgent := 0, high := 0, medium := 1, low := 0 }
        recent_tasks := [sampleTask] } ∧
    completionPercentage 1 8 = ⌊((1 : ℚ) / (8 : ℚ)) * 100 + 1 / 2⌋₊ ∧
    completionPercentage 1 8 = 13 := by
  refine ⟨get_project_summary_spec.1 sampleStore "zzz" rfl, ?_, ?_, by decide⟩
  · have h := get_project_summary_spec.2.1 sampleStore "p1" sampleProject rfl
    rw [h]
    rfl
  · exact get_project_summary_spec.2.2.1 1 8 (by decide)

/-! ### C3: the `subtasks` / `parent_task_id` invariant -/

/-- Task ids of the store are duplicate-free (uuid generation). -/
def TaskIdsNodup (s : Store) : Prop := (s.tasks.map Task.id).Nodup

/-- One direction of the claimed invariant, over a task list: every task
whose `parent_task_id` points at an existing task is registered in that
task's `subtasks`. -/
def ParentLinkedL (l : List Task) : Prop :=
  ∀ pt ∈ l, ∀ ct ∈ l, ct.parent_task_id = some pt.id → ct.id ∈ pt.subtasks

/-- The claimed invariant: a task's `subtasks` list is exactly the set of
ids of existing tasks whose `parent_task_id` equals this task's id. -/
def SubtaskExact (s : Store) : Prop :=
  ∀ pt ∈ s.tasks, ∀ cid : String,
    cid ∈ pt.subtasks ↔ ∃ ct ∈ s.tasks, ct.id = cid ∧ ct.parent_task_id = some pt.id

/-- Freshness of a generated uuid: the new id occurs nowhere in the store —
not as a project or task id, not as a stored parent reference, not in any
`subtasks` list. -/
def FreshId (newId : String) (s : Store) : Prop :=
  (∀ p ∈ s.projects, p.id ≠ newId) ∧
  (∀ t ∈ s.tasks, t.id ≠ newId ∧ t.parent_task_id ≠ some newId ∧
    newId ∉ t.subtasks)

/-- The stores reachable from the empty store by any sequence of the store
operations; failing operations return the store unchanged, so each
constructor covers both outcomes of its handler.  The create operations
require the generated uuid to be fresh. -/
inductive Reachable : Store → Prop where
  | empty : Reachable emptyStore
  | create_project (s : Store) (args : CreateProjectArgs) (newId : String)
      (now : Nat) : Reachable s → FreshId newId s →
      Reachable (handleCreateProject args newId now s).store
  | create_task (s : Store) (args : CreateTaskArgs) (newId : String)
      (now : Nat) : Reachable s → FreshId newId s →
      Reachable (handleCreateTask args newId now s).store
  | update_project (s : Store) (args : UpdateProjectArgs) (now : Nat) :
      Reachable s → Reachable (handleUpdateProject args now s).store
  | update_task (s : Store) (args : UpdateTaskArgs) (now : Nat) :
      Reachable s → Reachable (handleUpdateTask args now s).store
  | delete_project (s : Store) (args : DeleteProjectArgs) :
      Reachable s → Reachable (handleDeleteProject args s).store
  | delete_task (s : Store) (args : DeleteTaskArgs) :
      Reachable s → Reachable (handleDeleteTask args s).store
  | move_task (s : Store) (args : MoveTaskArgs) (now : Nat) :
      Reachable s → Reachable (handleMoveTask args now s).store

theorem nodup_ids_ne {l1 l2 : List Task} {dt : Task}
    (hnd : ((l1 ++ dt :: l2).map Task.id).Nodup) :
    ∀ x ∈ l1 ++ l2, x.id ≠ dt.id := by
  rw [List.map_append, List.map_cons] at hnd
  intro x hx heq
  rcases List.mem_append.1 hx with hx | hx
  · have hmem : dt.id ∈ l1.map Task.id := heq ▸ List.mem_map_of_mem Task.id hx
    exact (List.nodup_append.1 hnd).2.2 hmem (List.mem_cons_self _ _)
  · have hmem : dt.id ∈ l2.map Task.id := heq ▸ List.mem_map_of_mem Task.id hx
    exact (List.nodup_cons.1 (List.nodup_append.1 hnd).2.1).1 hmem

theorem nodup_append_fresh {l : List Task} {nt : Task}
    (hnd : (l.map Task.id).Nodup) (hfr : ∀ t ∈ l, t.id ≠ nt.id) :
    ((l ++ [nt]).map Task.id).Nodup := by
  rw [List.map_append]
  refine List.Nodup.append hnd (List.nodup_singleton _) ?_
  intro a ha hb
  rcases List.mem_map.1 ha with ⟨t, ht, rfl⟩
  have : t.id = nt.id := by simpa using hb
  exact hfr t ht this

theorem parentLinkedL_mono {l l2 : List Task} (hsub : ∀ x ∈ l2, x ∈ l)
    (h : ParentLinkedL l) : ParentLinkedL l2 :=
  fun pt hpt ct hct hrel => h pt (hsub pt hpt) ct (hsub ct hct) hrel

theorem parentLinkedL_updateFirst {l : List Task} {p : Task → Bool}
    {f : Task → Task}
    (hid : ∀ x, (f x).id = x.id)
    (hpar : ∀ x, (f x).parent_task_id = x.parent_task_id)
    (hsub : ∀ x, (f x).subtasks = x.subtasks)
    (h : ParentLinkedL l) : ParentLinkedL (updateFirst p f l) := by
  intro pt hpt ct hct hrel
  rcases mem_updateFirst hpt with hpt0 | ⟨py, hpy, _, rfl⟩
  · rcases mem_updateFirst hct with hct0 | ⟨cy, hcy, _, rfl⟩
    · exact h pt hpt0 ct hct0 hrel
    · rw [hpar] at hrel
      have := h pt hpt0 cy hcy hrel
      rwa [hid]
  · rcases mem_updateFirst hct with hct0 | ⟨cy, hcy, _, rfl⟩
    · rw [hid] at hrel
      have := h py hpy ct hct0 hrel
      rwa [hsub]
    · rw [hpar, hid] at hrel
      have := h py hpy cy hcy hrel
      rw [hid, hsub]
      exact this

theorem parentLinkedL_filter_subtasks {l : List Task} {dtid : String}
    {p : Task → Bool}
    (h : ParentLinkedL l) (hne : ∀ x ∈ l, x.id ≠ dtid) :
    ParentLinkedL (updateFirst p
      (fun t => { t with subtasks := t.subtasks.filter (fun i => !(i == dtid)) })
      l) := by
  intro pt hpt ct hct hrel
  have hbase : ∀ x ∈ updateFirst p
      (fun t => { t with subtasks := t.subtasks.filter (fun i => !(i == dtid)) }) l,
      ∃ y ∈ l, y.id = x.id ∧ y.parent_task_id = x.parent_task_id ∧
        (x.subtasks = y.subtasks ∨
          x.subtasks = y.subtasks.filter (fun i => !(i == dtid))) := by
    intro x hx
    rcases mem_updateFirst hx with hx0 | ⟨y, hy, _, rfl⟩
    · exact ⟨x, hx0, rfl, rfl, Or.inl rfl⟩
    · exact ⟨y, hy, rfl, rfl, Or.inr rfl⟩
  obtain ⟨pt0, hpt0, hptid, _, hptsub⟩ := hbase pt hpt
  obtain ⟨ct0, hct0, hctid, hctpar, _⟩ := hbase ct hct
  have hrel0 : ct0.parent_task_id = some pt0.id := by rw [hctpar, hrel, hptid]
  have hin : ct0.id ∈ pt0.subtasks := h pt0 hpt0 ct0 hct0 hrel0
  have hctne : ct0.id ≠ dtid := hne ct0 hct0
  rcases hptsub with hs | hs
  · rw [hs, ← hctid]
    exact hin
  · rw [hs, ← hctid]
    exact List.mem_filter.2 ⟨hin, by simpa using hctne⟩

theorem parentLinkedL_append_orphan {l : List Task} {nt : Task}
    (hPL : ParentLinkedL l)
    (hnp : nt.parent_task_id = none)
    (hfreshp : ∀ t ∈ l, t.parent_task_id ≠ some nt.id) :
    ParentLinkedL (l ++ [nt]) := by
  intro pt hpt ct hct hrel
  rcases List.mem_append.1 hpt with hpt | hpt
  · rcases List.mem_append.1 hct with hct | hct
    · exact hPL pt hpt ct hct hrel
    · have hceq : ct = nt := List.mem_singleton.1 hct
      rw [hceq, hnp] at hrel
      cases hrel
  · have hpeq : pt = nt := List.mem_singleton.1 hpt
    rcases List.mem_append.1 hct with hct | hct
    · rw [hpeq] at hrel
      exact absurd hrel (hfreshp ct hct)
    · have hceq : ct = nt := List.mem_singleton.1 hct
      rw [hceq, hnp] at hrel
      cases hrel

theorem parentLinkedL_append_dangling {l : List Task} {nt : Task}
    {pid : String}
    (hPL : ParentLinkedL l)
    (hnp : nt.parent_task_id = some pid)
    (hnores : ∀ x ∈ l ++ [nt], x.id ≠ pid)
    (hfreshp : ∀ t ∈ l, t.parent_task_id ≠ some nt.id) :
    ParentLinkedL (l ++ [nt]) := by
  intro pt hpt ct hct hrel
  rcases List.mem_append.1 hct with hct | hct
  · rcases List.mem_append.1 hpt with hpt | hpt
    · exact hPL pt hpt ct hct hrel
    · have hpeq : pt = nt := List.mem_singleton.1 hpt
      rw [hpeq] at hrel
      exact absurd hrel (hfreshp ct hct)
  · have hceq : ct = nt := List.mem_singleton.1 hct
    rw [hceq, hnp] at hrel
    have hptid : pt.id = pid := (Option.some.inj hrel).symm
    exact absurd hptid (hnores pt hpt)

theorem parentLinkedL_insert_linked {l : List Task} {nt par : Task}
    {pid : String}
    (hPL : ParentLinkedL l)
    (hnp : nt.parent_task_id = some pid)
    (hfind : (l ++ [nt]).find? (fun t => t.id == pid) = some par)
    (hnd : ((l ++ [nt]).map Task.id).Nodup)
    (hfreshp : ∀ t ∈ l, t.parent_task_id ≠ some nt.id) :
    ParentLinkedL (updateFirst (fun t => t.id == pid)
      (fun t => { t with subtasks := t.subtasks ++ [nt.id] }) (l ++ [nt])) := by
  obtain ⟨m1, m2, hdec, hm1⟩ := find?_decomp hfind
  have hparid : par.id = pid := by simpa using List.find?_some hfind
  have hpar_mem : par ∈ l ++ [nt] := List.mem_of_find?_eq_some hfind
  have hupd : updateFirst (fun t => t.id == pid)
      (fun t => { t with subtasks := t.subtasks ++ [nt.id] }) (l ++ [nt]) =
      m1 ++ { par with subtasks := par.subtasks ++ [nt.id] } :: m2 := by
    rw [hdec]
    exact updateFirst_append_cons _ _ _ _ hm1 (by simp [hparid])
  have hndm : ((m1 ++ par :: m2).map Task.id).Nodup := by
    rw [← hdec]
    exact hnd
  have hother : ∀ x ∈ m1 ++ m2, x.id ≠ pid := by
    intro x hx
    rw [← hparid]
    exact nodup_ids_ne hndm x hx
  have hmem_base : ∀ x ∈ m1 ++ m2, x ∈ l ++ [nt] := by
    intro x hx
    rw [hdec]
    rcases List.mem_append.1 hx with h | h
    · exact List.mem_append_left _ h
    · exact List.mem_append_right _ (List.mem_cons_of_mem _ h)
  rw [hupd]
  have hsplit : ∀ x,
      x ∈ m1 ++ { par with subtasks := par.subtasks ++ [nt.id] } :: m2 →
      x = { par with subtasks := par.subtasks ++ [nt.id] } ∨ x ∈ m1 ++ m2 := by
    intro x hx
    rcases List.mem_append.1 hx with hx | hx
    · exact Or.inr (List.mem_append_left _ hx)
    · rcases List.mem_cons.1 hx with hx | hx
      · exact Or.inl hx
      · exact Or.inr (List.mem_append_right _ hx)
  intro pt hpt ct hct hrel
  rcases hsplit ct hct with rfl | hctB
  · have hrelp : par.parent_task_id = some pt.id := hrel
    rcases List.mem_append.1 hpar_mem with hparl | hparnt
    · rcases hsplit pt hpt with rfl | hptB
      · have hrel2 : par.parent_task_id = some par.id := hrelp
        have hin := hPL par hparl par hparl hrel2
        exact List.mem_append_left _ hin
      · have hptbase := hmem_base pt hptB
        rcases List.mem_append.1 hptbase with hptl | hptnt
        · exact hPL pt hptl par hparl hrelp
        · have hpeq : pt = nt := List.mem_singleton.1 hptnt
          rw [hpeq] at hrelp
          exact absurd hrelp (hfreshp par hparl)
    · have hpareq : par = nt := List.mem_singleton.1 hparnt
      rcases hsplit pt hpt with rfl | hptB
      · rw [hpareq]
        exact List.mem_append_right _ (List.mem_singleton.2 rfl)
      · have h2 : nt.parent_task_id = some pt.id := by
          rw [← hpareq]
          exact hrelp
        rw [hnp] at h2
        exact absurd (Option.some.inj h2).symm (hother pt hptB)
  · have hctbase := hmem_base ct hctB
    rcases List.mem_append.1 hctbase with hctl | hctnt
    · rcases hsplit pt hpt with rfl | hptB
      · have hrelp : ct.parent_task_id = some par.id := hrel
        rcases List.mem_append.1 hpar_mem with hparl | hparnt
        · have hin := hPL par hparl ct hctl hrelp
          exact List.mem_append_left _ hin
        · have hpareq : par = nt := List.mem_singleton.1 hparnt
          rw [hpareq] at hrelp
          exact absurd hrelp (hfreshp ct hctl)
      · have hptbase := hmem_base pt hptB
        rcases List.mem_append.1 hptbase with hptl | hptnt
        · exact hPL pt hptl ct hctl hrel
        · have hpeq : pt = nt := List.mem_singleton.1 hptnt
          rw [hpeq] at hrel
          exact absurd hrel (hfreshp ct hctl)
    · have hceq : ct = nt := List.mem_singleton.1 hctnt
      rcases hsplit pt hpt with rfl | hptB
      · rw [hceq]
        exact List.mem_append_right _ (List.mem_singleton.2 rfl)
      · rw [hceq, hnp] at hrel
        exact absurd (Option.some.inj hrel).symm (hother pt hptB)

theorem linkParent_map_id (pid0 : Option String) (newId : String)
    (l : List Task) : (linkParent pid0 newId l).map Task.id = l.map Task.id := by
  cases pid0 with
  | none => rfl
  | some pid =>
    simp only [linkParent]
    cases hfp : l.find? (fun t => t.id == pid) with
    | none => rfl
    | some par =>
      show (updateFirst (fun t => t.id == pid)
        (fun t => { t with subtasks := t.subtasks ++ [newId] }) l).map Task.id =
        l.map Task.id
      exact updateFirst_map Task.id (fun t => t.id == pid)
        (fun t => { t with subtasks := t.subtasks ++ [newId] })
        (fun x => rfl) l

theorem parentLinkedL_linkParent {l : List Task} {nt : Task}
    (hPL : ParentLinkedL l)
    (hnd : ((l ++ [nt]).map Task.id).Nodup)
    (hfreshp : ∀ t ∈ l, t.parent_task_id ≠ some nt.id) :
    ParentLinkedL (linkParent nt.parent_task_id nt.id (l ++ [nt])) := by
  cases hpo : nt.parent_task_id with
  | none =>
    simp only [linkParent]
    exact parentLinkedL_append_orphan hPL hpo hfreshp
  | some pid =>
    simp only [linkParent]
    cases hfp : (l ++ [nt]).find? (fun t => t.id == pid) with
    | none =>
      refine parentLinkedL_append_dangling hPL hpo ?_ hfreshp
      intro x hx heq
      have h2 := List.find?_eq_none.1 hfp x hx
      simp [heq] at h2
    | some par =>
      exact parentLinkedL_insert_linked hPL hpo hfp hnd hfreshp

theorem unlinkParent_map_id (parentO : Option String) (dtid : String)
    (l : List Task) :
    (unlinkParent parentO dtid l).map Task.id = l.map Task.id := by
  cases parentO with
  | none => rfl
  | some pid =>
    simp only [unlinkParent]
    by_cases hp : pid ≠ ""
    · rw [if_pos hp]
      cases hfp : l.find? (fun t => t.id == pid) with
      | none => rfl
      | some par =>
        show (updateFirst (fun t => t.id == pid)
          (fun t => { t with
            subtasks := t.subtasks.filter (fun i => !(i == dtid)) }) l).map Task.id =
          l.map Task.id
        exact updateFirst_map Task.id (fun t => t.id == pid)
          (fun t => { t with
            subtasks := t.subtasks.filter (fun i => !(i == dtid)) })
          (fun x => rfl) l
    · rw [if_neg hp]

theorem parentLinkedL_unlinkParent {l : List Task} {parentO : Option String}
    {dtid : String}
    (hPL : ParentLinkedL l) (hne : ∀ x ∈ l, x.id ≠ dtid) :
    ParentLinkedL (unlinkParent parentO dtid l) := by
  cases parentO with
  | none => exact hPL
  | some pid =>
    simp only [unlinkParent]
    by_cases hp : pid ≠ ""
    · rw [if_pos hp]
      cases hfp : l.find? (fun t => t.id == pid) with
      | none => exact hPL
      | some par => exact parentLinkedL_filter_subtasks hPL hne
    · rw [if_neg hp]
      exact hPL

theorem create_task_preserves (s : Store) (args : CreateTaskArgs)
    (newId : String) (now : Nat) (hfresh : FreshId newId s)
    (hnd : TaskIdsNodup s) (hPL : ParentLinkedL s.tasks) :
    TaskIdsNodup (handleCreateTask args newId now s).store ∧
    ParentLinkedL (handleCreateTask args newId now s).store.tasks := by
  cases hfind : s.projects.find? (fun p => p.id == args.project_id) with
  | none =>
    simp only [handleCreateTask, hfind]
    exact ⟨hnd, hPL⟩
  | some proj =>
    simp only [handleCreateTask, hfind]
    have hfr_id : ∀ t ∈ s.tasks, t.id ≠ (newTaskRecord args newId now proj).id :=
      fun t ht => (hfresh.2 t ht).1
    have hndt : ((s.tasks ++ [newTaskRecord args newId now proj]).map Task.id).Nodup :=
      nodup_append_fresh hnd hfr_id
    have hfrp : ∀ t ∈ s.tasks,
        t.parent_task_id ≠ some (newTaskRecord args newId now proj).id :=
      fun t ht => (hfresh.2 t ht).2.1
    constructor
    · show ((linkParent (jsOrNull args.parent_task_id) newId
        (s.tasks ++ [newTaskRecord args newId now proj])).map Task.id).Nodup
      rw [linkParent_map_id]
      exact hndt
    · exact parentLinkedL_linkParent hPL hndt hfrp

/-- The inductive core: every reachable store has duplicate-free task ids,
and every existing task with an existing parent is registered in that
parent's `subtasks`. -/
theorem reachable_nodup_parentLinked :
    ∀ s : Store, Reachable s → TaskIdsNodup s ∧ ParentLinkedL s.tasks := by
  intro s hs
  induction hs with
  | empty =>
    constructor
    · simp [TaskIdsNodup, emptyStore]
    · intro pt hpt
      exact absurd hpt (List.not_mem_nil pt)
  | create_project s args newId now hre hfresh ih => exact ih
  | create_task s args newId now hre hfresh ih =>
    exact create_task_preserves s args newId now hfresh ih.1 ih.2
  | update_project s args now hre ih =>
    cases hfind : s.projects.find? (fun p => p.id == args.id) with
    | none => simp only [handleUpdateProject, hfind]; exact ih
    | some p => simp only [handleUpdateProject, hfind]; exact ih
  | update_task s args now hre ih =>
    cases hfind : s.tasks.find? (fun t => t.id == args.id) with
    | none => simp only [handleUpdateTask, hfind]; exact ih
    | some t =>
      simp only [handleUpdateTask, hfind]
      constructor
      · show ((updateFirst (fun x => x.id == args.id)
          (applyTaskUpdate args now) s.tasks).map Task.id).Nodup
        rw [updateFirst_map Task.id (fun x => x.id == args.id)
          (applyTaskUpdate args now) (fun x => rfl)]
        exact ih.1
      · exact parentLinkedL_updateFirst (fun x => rfl) (fun x => rfl)
          (fun x => rfl) ih.2
  | delete_project s args hre ih =>
    cases hfind : s.projects.find? (fun p => p.id == args.id) with
    | none => simp only [handleDeleteProject, hfind]; exact ih
    | some p =>
      cases hdel : args.delete_tasks with
      | false =>
        simp only [handleDeleteProject, hfind, hdel, Bool.false_eq_true,
          if_false]
        exact ih
      | true =>
        simp only [handleDeleteProject, hfind, hdel, if_true]
        constructor
        · show ((s.tasks.filter
            (fun t => !(t.project_id == args.id))).map Task.id).Nodup
          exact List.Nodup.sublist
            (List.Sublist.map Task.id (List.filter_sublist s.tasks)) ih.1
        · show ParentLinkedL (s.tasks.filter
            (fun t => !(t.project_id == args.id)))
          exact parentLinkedL_mono
            (fun x hx => List.mem_of_mem_filter hx) ih.2
  | delete_task s args hre ih =>
    cases hfind : s.tasks.find? (fun t => t.id == args.id) with
    | none => simp only [handleDeleteTask, hfind]; exact ih
    | some dt =>
      simp only [handleDeleteTask, hfind]
      obtain ⟨l1, l2, hdec, hl1⟩ := find?_decomp hfind
      have hdtid : dt.id = args.id := by simpa using List.find?_some hfind
      have hrem : removeFirst (fun t => t.id == args.id) s.tasks = l1 ++ l2 := by
        rw [hdec]
        exact removeFirst_append_cons _ _ _ hl1 (by simp [hdtid])
      have hnd0 : ((l1 ++ dt :: l2).map Task.id).Nodup := by
        rw [← hdec]
        exact ih.1
      have hnd1 : ((l1 ++ l2).map Task.id).Nodup := by
        refine List.Nodup.sublist ?_ hnd0
        exact List.Sublist.map Task.id
          (List.Sublist.append_left (List.sublist_cons_self dt l2) l1)
      have hne : ∀ x ∈ l1 ++ l2, x.id ≠ dt.id := nodup_ids_ne hnd0
      have hmem : ∀ x ∈ l1 ++ l2, x ∈ s.tasks := by
        intro x hx
        rw [hdec]
        rcases List.mem_append.1 hx with h | h
        · exact List.mem_append_left _ h
        · exact List.mem_append_right _ (List.mem_cons_of_mem _ h)
      constructor
      · show ((unlinkParent dt.parent_task_id dt.id
          (removeFirst (fun t => t.id == args.id) s.tasks)).map Task.id).Nodup
        rw [unlinkParent_map_id, hrem]
        exact hnd1
      · show ParentLinkedL (unlinkParent dt.parent_task_id dt.id
          (removeFirst (fun t => t.id == args.id) s.tasks))
        rw [hrem]
        exact parentLinkedL_unlinkParent (parentLinkedL_mono hmem ih.2) hne
  | move_task s args now hre ih =>
    cases hfindT : s.tasks.find? (fun t => t.id == args.task_id) with
    | none => simp only [handleMoveTask, hfindT]; exact ih
    | some t =>
      cases hfindP : s.projects.find? (fun p => p.id == args.new_project_id) with
      | none => simp only [handleMoveTask, hfindT, hfindP]; exact ih
      | some np =>
        simp only [handleMoveTask, hfindT, hfindP]
        constructor
        · show ((updateFirst (fun x => x.id == args.task_id)
            (fun x => { x with project_id := args.new_project_id
                               project_name := np.name, updated_at := now })
            s.tasks).map Task.id).Nodup
          rw [updateFirst_map Task.id (fun x => x.id == args.task_id)
            (fun x => { x with project_id := args.new_project_id
                               project_name := np.name, updated_at := now })
            (fun x => rfl)]
          exact ih.1
        · exact parentLinkedL_updateFirst (fun x => rfl) (fun x => rfl)
            (fun x => rfl) ih.2

def cpArgsP : CreateProjectArgs :=
  { name := some "P", description := none, status := none, priority := none
    due_date := none, tags := none }

def cpArgsQ : CreateProjectArgs :=
  { name := some "Q", description := none, status := none, priority := none
    due_date := none, tags := none }

def ctArgsA : CreateTaskArgs :=
  { title := some "A", description := none, project_id := "p2", status := none
    priority := none, due_date := none, assignee := none, tags := none
    parent_task_id := none }

def ctArgsB : CreateTaskArgs :=
  { title := some "B", description := none, project_id := "p1", status := none
    priority := none, due_date := none, assignee := none, tags := none
    parent_task_id := some "a" }

def cxStore1 : Store := (handleCreateProject cpArgsP "p1" 0 emptyStore).store
def cxStore2 : Store := (handleCreateProject cpArgsQ "p2" 0 cxStore1).store
def cxStore3 : Store := (handleCreateTask ctArgsA "a" 1 cxStore2).store
def cxStore4 : Store := (handleCreateTask ctArgsB "b" 2 cxStore3).store
def cxStore5 : Store :=
  (handleDeleteProject { id := "p1", delete_tasks := true } cxStore4).store

theorem cxReach4 : Reachable cxStore4 :=
  Reachable.create_task cxStore3 ctArgsB "b" 2
    (Reachable.create_task cxStore2 ctArgsA "a" 1
      (Reachable.create_project cxStore1 cpArgsQ "p2" 0
        (Reachable.create_project emptyStore cpArgsP "p1" 0
          Reachable.empty ⟨by decide, by decide⟩)
        ⟨by decide, by decide⟩)
      ⟨by decide, by decide⟩)
    ⟨by decide, by decide⟩

theorem cxReach5 : Reachable cxStore5 :=
  Reachable.delete_project cxStore4 { id := "p1", delete_tasks := true } cxReach4

/-- The record of task `"a"` after the run creating projects `p1`, `p2`,
task `a` in `p2` and its subtask `b` in `p1`, then cascade-deleting `p1`:
its `subtasks` still holds `"b"` although task `b` is gone. -/
def cxParent4 : Task :=
  { id := "a", title := some "A", description := "", project_id := "p2"
    project_name := some "Q", status := "todo", priority := "medium"
    due_date := none, assignee := none, tags := [], parent_task_id := none
    created_at := 1, updated_at := 1, subtasks := ["b"] }

/-- The record of the subtask `"b"` of `"a"`, living in project `p1`. -/
def cxChild : Task :=
  { id := "b", title := some "B", description := "", project_id := "p1"
    project_name := some "P", status := "todo", priority := "medium"
    due_date := none, assignee := none, tags := [], parent_task_id := some "a"
    created_at := 2, updated_at := 2, subtasks := [] }

/-- C3 counterexample: the store reached by creating projects `p1` and
`p2`, task `a` in `p2`, its subtask `b` in `p1`, and cascade-deleting `p1`
is reachable, yet the surviving task `a` still lists `"b"` in its
`subtasks` while no task with id `"b"` exists — cascade deletion never
cleans surviving parents' `subtasks`, so the claimed exact-set invariant
fails. -/
theorem subtask_invariant_counterexample :
    Reachable cxStore5 ∧ ¬ SubtaskExact cxStore5 := by
  refine ⟨cxReach5, ?_⟩
  intro h
  have h2 := (h cxParent4 (by decide) "b").1 (by decide)
  exact absurd h2 (by decide)

/-- C3 amended: in every state reachable from the empty store by any
sequence of the store operations (with fresh generated ids), task ids are
duplicate-free and one direction of the claimed invariant holds: for every
existing task `T`, every existing task whose `parent_task_id` equals
`T.id` has its id in `T.subtasks`.  The converse inclusion — `T.subtasks`
holding only ids of existing tasks — is the direction broken by cascade
`delete_project` (see the counterexample). -/
theorem reachable_subtasks_sound :
    ∀ s : Store, Reachable s →
      (s.tasks.map Task.id).Nodup ∧
      ∀ pt ∈ s.tasks, ∀ ct ∈ s.tasks,
        ct.parent_task_id = some pt.id → ct.id ∈ pt.subtasks :=
  fun s hs => reachable_nodup_parentLinked s hs

/-- Witness for C3 (amended) at the concrete reachable store holding task
`a` and its registered subtask `b`. -/
theorem reachable_subtasks_sound_witness :
    (cxStore4.tasks.map Task.id).Nodup ∧ cxChild.id ∈ cxParent4.subtasks := by
  have h := reachable_subtasks_sound cxStore4 cxReach4
  exact ⟨h.1, h.2 cxParent4 (by decide) cxChild (by decide) (by decide)⟩

end TaskManager
